import Mathlib

/-!
# Verification of the algobuilder plugins price/feature pipeline

A shallow embedding of the repository's two algorithmic subsystems:

* the MT5 retrieval pipeline (`src/datasource/mt5datasource/mt5datasource.py`):
  batch planning (`__get_batches`), batched fetching with typed failure
  (`__get_rates`, `__get_ticks`), seam deduplication, tick resampling and
  candle assembly (`get_prices`);
* the incremental feature pipeline (`src/feature/feature.py`,
  `src/feature/movingaverage/movingaverage.py`) together with the persistence
  helper (`src/algobuilder/utils.py`, `DatabaseUtility.bulk_insert_or_update`).

Times are modelled as natural numbers (the batch planner's arithmetic is in
milliseconds); prices are rationals; pandas NaN cells are `Option.none`;
Python exceptions are `Except.error` values.
-/

namespace MT5

/-- Models `pricedata.datasource.DataNotAvailableException` (and the other ways
the MT5 fetch code can raise): `dataNotAvailable` carries exactly the fields the
Python constructor stores; `keyError` models the `KeyError` raised by a lookup
of an unknown period code in `period_mapping` / `period_batch_days`;
`noneTypeError` models the `AttributeError` / `KeyError` raised downstream when
a fetch loop ran over zero batches and left its accumulator as `None`. -/
inductive DataErr where
  | dataNotAvailable (datasource symbol period : String) (fromDate toDate : Nat)
      (errorCode : Int) (errorMessage : String)
  | keyError
  | noneTypeError
  deriving DecidableEq, Repr

/-- One raw tick as returned by `MetaTrader5.copy_ticks_range`; the resampling
code uses the `time`, `bid` and `ask` fields. -/
structure Tick where
  time : Nat
  bid : ℚ
  ask : ℚ
  deriving DecidableEq, Repr

/-- One raw candle as returned by `MetaTrader5.copy_rates_range`; `get_prices`
uses `time`, `open/high/low/close`, `spread` and `tick_volume`. `openP` etc.
avoid clashing with Lean names. -/
structure Rate where
  time : Nat
  openP : ℚ
  highP : ℚ
  lowP : ℚ
  closeP : ℚ
  spread : ℚ
  tickVolume : Nat
  deriving DecidableEq, Repr

/-- One row of the dataframe returned by `MT5DataSource.get_prices`, with the
columns `['time', 'period', 'bid_open', 'bid_high', 'bid_low', 'bid_close',
'ask_open', 'ask_high', 'ask_low', 'ask_close', 'volume']`. -/
structure PriceRow where
  time : Nat
  period : String
  bidOpen : ℚ
  bidHigh : ℚ
  bidLow : ℚ
  bidClose : ℚ
  askOpen : ℚ
  askHigh : ℚ
  askLow : ℚ
  askClose : ℚ
  volume : Nat
  deriving DecidableEq, Repr

/-- The `period_batch_days` dictionary of `MT5DataSource.__get_batches`,
converted from (possibly fractional) days to milliseconds
(`timedelta(days=d)`): e.g. `1/24` day = 3 600 000 ms, 120 days =
10 368 000 000 ms. `none` models the `KeyError` for an unknown code. -/
def periodBatchMs : String → Option Nat
  | "1S" => some 3600000
  | "5S" => some 18000000
  | "10S" => some 36000000
  | "15S" => some 54000000
  | "30S" => some 86400000
  | "1M" => some 86400000
  | "5M" => some 432000000
  | "10M" => some 864000000
  | "15M" => some 1296000000
  | "30M" => some 2592000000
  | "1H" => some 5184000000
  | "3H" => some 5184000000
  | "6H" => some 5184000000
  | "12H" => some 5184000000
  | "1D" => some 10368000000
  | "1W" => some 10368000000
  | "1MO" => some 10368000000
  | _ => none

/-- The `period_mapping` dictionary of `MT5DataSource.get_prices`:
`some true` when MT5 has a native timeframe for the code (the identity of the
`MetaTrader5.TIMEFRAME_*` constant is irrelevant to the embedding),
`some false` when the entry is `None` (sub-minute codes, routed through tick
fetch + resample), `none` for an unknown code (`KeyError`). -/
def periodNative : String → Option Bool
  | "1S" => some false
  | "5S" => some false
  | "10S" => some false
  | "15S" => some false
  | "30S" => some false
  | "1M" => some true
  | "5M" => some true
  | "10M" => some true
  | "15M" => some true
  | "30M" => some true
  | "1H" => some true
  | "3H" => some true
  | "6H" => some true
  | "12H" => some true
  | "1D" => some true
  | "1W" => some true
  | "1MO" => some true
  | _ => none

/-- Bucket length, in the tick time unit, of the pandas `resample(period)`
rule for the codes that route through the tick path (tick times from MT5 are
unix seconds, so the unit is seconds). -/
def periodSeconds : String → Option Nat
  | "1S" => some 1
  | "5S" => some 5
  | "10S" => some 10
  | "15S" => some 15
  | "30S" => some 30
  | _ => none

/-- The `while last_batch_to < to_date` loop of `MT5DataSource.__get_batches`.
`last_batch_to` is initialised to `from_date` by the caller, so the
`if last_batch_to is None` guard inside the loop is never taken and every
batch — including the first — starts at `last_batch_to + 1` ms.  Each
iteration advances `last_batch_to` by at least 1 ms, so `toDate - fromDate`
iterations of fuel always suffice; the fuel never runs out before the loop
condition fails. -/
def getBatchesAux (batchMs toDate : Nat) : Nat → Nat → List (Nat × Nat)
  | 0, _ => []
  | fuel + 1, lastBatchTo =>
    if lastBatchTo < toDate then
      let batchFrom := lastBatchTo + 1
      let batchTo := min (batchFrom + batchMs) toDate
      (batchFrom, batchTo) :: getBatchesAux batchMs toDate fuel batchTo
    else []

/-- Embeds `MT5DataSource.__get_batches`: split `[fromDate, toDate]` into batches
sized by the period's `period_batch_days` entry.  `none` models the `KeyError`
raised on an unknown period code. -/
def getBatches (period : String) (fromDate toDate : Nat) : Option (List (Nat × Nat)) :=
  (periodBatchMs period).map (fun b => getBatchesAux b toDate (toDate - fromDate) fromDate)

/-- The shared fetch loop of `__get_rates` / `__get_ticks`: one upstream call
per batch (`none` models the upstream returning `None`, i.e. failure); on the
first failure the loop raises `err` (built from `MetaTrader5.last_error()`);
otherwise the per-batch results are appended in batch order. -/
def fetchAll (fetch : Nat × Nat → Option (List α)) (err : DataErr) :
    List (Nat × Nat) → Except DataErr (List α)
  | [] => .ok []
  | b :: bs =>
    match fetch b with
    | none => .error err
    | some rows => (fetchAll fetch err bs).map (fun rest => rows ++ rest)

/-- Embeds `DataFrame.drop_duplicates(subset=['time'], keep='last')`: a row survives
only if no later row shares its `time`; surviving rows keep their order. -/
def dropDupKeepLast : List Rate → List Rate
  | [] => []
  | r :: rest =>
    if rest.any (fun s => s.time = r.time) then dropDupKeepLast rest
    else r :: dropDupKeepLast rest

/-- Embeds `MT5DataSource.__get_rates`: plan batches, fetch each batch via
`copy_rates_range` (failure raises `DataNotAvailableException` carrying the
datasource name, symbol, period, the overall requested range and the upstream
error code/message), append the per-batch frames in order, then
`drop_duplicates(subset=['time'], keep='last')`.  When the batch list is empty
the accumulator is still `None` and `None.drop_duplicates` raises
(`noneTypeError`). -/
def getRates (fetch : Nat × Nat → Option (List Rate)) (datasource symbol period : String)
    (errorCode : Int) (errorMessage : String) (fromDate toDate : Nat) :
    Except DataErr (List Rate) :=
  match getBatches period fromDate toDate with
  | none => .error .keyError
  | some batches =>
    if batches.isEmpty then .error .noneTypeError
    else
      (fetchAll fetch
        (.dataNotAvailable datasource symbol period fromDate toDate errorCode errorMessage)
        batches).map dropDupKeepLast

/-- Embeds `MT5DataSource.__get_ticks`: plan batches, fetch each batch via
`copy_ticks_range` (failure raises `DataNotAvailableException` exactly as in
`__get_rates`), append the per-batch frames in order.  No duplicate removal is
performed on the tick path.  With zero batches the function returns its
still-`None` accumulator (`Option.none` here); the caller crashes on it. -/
def getTicks (fetch : Nat × Nat → Option (List Tick)) (datasource symbol period : String)
    (errorCode : Int) (errorMessage : String) (fromDate toDate : Nat) :
    Except DataErr (Option (List Tick)) :=
  match getBatches period fromDate toDate with
  | none => .error .keyError
  | some batches =>
    if batches.isEmpty then .ok none
    else
      (fetchAll fetch
        (.dataNotAvailable datasource symbol period fromDate toDate errorCode errorMessage)
        batches).map some

/-- The `{'open': 'first', 'high': 'max', 'low': 'min', 'close': 'last',
'volume': 'count'}` aggregation of one resample bucket, for one side (bid or
ask). -/
structure Agg where
  first : ℚ
  high : ℚ
  low : ℚ
  last : ℚ
  count : Nat
  deriving DecidableEq, Repr

/-- Aggregate one bucket's ticks for the side selected by `sel`; `none` for an
empty bucket (pandas emits a NaN row for it, removed later by `dropna`). -/
def aggSide (sel : Tick → ℚ) : List Tick → Option Agg
  | [] => none
  | x :: xs =>
    some { first := sel x
           high := (xs.map sel).foldl max (sel x)
           low := (xs.map sel).foldl min (sel x)
           last := sel (((x :: xs).getLast?).getD x)
           count := xs.length + 1 }

/-- The ticks falling in resample bucket `b` (pandas buckets are left-closed
with left labels, so tick `t` lands in bucket `t / pSec`). -/
def ticksInBucket (pSec : Nat) (ts : List Tick) (b : Nat) : List Tick :=
  ts.filter (fun x => x.time / pSec = b)

/-- The tick branch of `MT5DataSource.get_prices`: resample the tick frame's
`bid` and `ask` columns over `period`, concatenate the two aggregations,
insert the period code, rename the columns (dropping the bid-side count so the
surviving `volume` column is the ask-side tick count) and `dropna()` (which
removes exactly the all-NaN rows of empty buckets).  pandas materialises one
row per bucket between the first and last tick's buckets; `filterMap` keeps
the non-empty ones. -/
def resampleTicks (period : String) (pSec : Nat) (ts : List Tick) : List PriceRow :=
  match (ts.map (fun x => x.time / pSec)).min?, (ts.map (fun x => x.time / pSec)).max? with
  | some lo, some hi =>
    (List.range' lo (hi + 1 - lo)).filterMap (fun b =>
      match aggSide (fun x => x.bid) (ticksInBucket pSec ts b),
            aggSide (fun x => x.ask) (ticksInBucket pSec ts b) with
      | some bidAgg, some askAgg =>
        some { time := b * pSec, period := period,
               bidOpen := bidAgg.first, bidHigh := bidAgg.high,
               bidLow := bidAgg.low, bidClose := bidAgg.last,
               askOpen := askAgg.first, askHigh := askAgg.high,
               askLow := askAgg.low, askClose := askAgg.last,
               volume := askAgg.count }
      | _, _ => none)
  | _, _ => []

/-- The candle branch of `MT5DataSource.get_prices`: one output row per rate,
bid side straight from OHLC, ask side = OHLC + spread/10000, volume =
`tick_volume`. -/
def ratesToPriceRows (period : String) (rates : List Rate) : List PriceRow :=
  rates.map (fun r =>
    { time := r.time, period := period,
      bidOpen := r.openP, bidHigh := r.highP, bidLow := r.lowP, bidClose := r.closeP,
      askOpen := r.openP + r.spread / 10000, askHigh := r.highP + r.spread / 10000,
      askLow := r.lowP + r.spread / 10000, askClose := r.closeP + r.spread / 10000,
      volume := r.tickVolume })

/-- Embeds `MT5DataSource.get_prices`: route through the candle-native path when the
period has an MT5 timeframe, otherwise fetch ticks and resample.  A `None`
tick accumulator (zero batches) crashes in the dataframe conversion
(`noneTypeError`). -/
def getPrices (fetchRates : Nat × Nat → Option (List Rate))
    (fetchTicks : Nat × Nat → Option (List Tick)) (datasource symbol : String)
    (fromDate toDate : Nat) (period : String) (errorCode : Int) (errorMessage : String) :
    Except DataErr (List PriceRow) :=
  match periodNative period with
  | none => .error .keyError
  | some true =>
    (getRates fetchRates datasource symbol period errorCode errorMessage fromDate toDate).map
      (ratesToPriceRows period)
  | some false =>
    match getTicks fetchTicks datasource symbol period errorCode errorMessage fromDate toDate with
    | .error e => .error e
    | .ok none => .error .noneTypeError
    | .ok (some ts) =>
      match periodSeconds period with
      | none => .error .keyError
      | some pSec => .ok (resampleTicks period pSec ts)

end MT5

namespace Feature

/-- One row of the `pricedata_candle` table as used by the feature pipeline:
`dss` is `datasource_symbol_id`, `period` the candle period code, `time` the
candle timestamp, `bidClose` the only price column the moving-average feature
reads.  The table's uniqueness key is `(dss, period, time)`, so two rows may
share `(dss, time)` with different periods; the watermark SQL filters only on
`dss` and `time`. -/
structure CandleRow where
  dss : Nat
  period : String
  time : Int
  bidClose : ℚ
  deriving DecidableEq, Repr

/-- One row of the `feature_featureexecutionresult` table: the columns
uploaded by `MovingAverage.execute` (`feature_execution_id`, `time`,
`result`).  `result = none` models a NaN from the incomplete-window prefix of
`rolling(...).mean()`. -/
structure ResRow where
  featureExecutionId : Nat
  time : Int
  result : Option ℚ
  deriving DecidableEq, Repr

/-- A `feature.models.FeatureExecution` together with its
`featureexecutiondatasourcesymbol_set`: `requiredDss` is the list of
`datasource_symbol_id`s joined to the execution, `calculationPeriod` the
rolling-window size (the same field is fed both to
`pd.to_timedelta(calculation_period)` for the look-back subtraction and to
`rolling(calculation_period)` as the window, so it is one number in time
units = observations). -/
structure FeatureExecution where
  id : Nat
  calculationPeriod : Nat
  requiredDss : List Nat
  deriving DecidableEq, Repr

/-- A Python `AssertionError` from the `assert` statement at the top of
`MovingAverage.execute`. -/
inductive ExecErr where
  | assertionError
  deriving DecidableEq, Repr

/-- One `INSERT ... ON CONFLICT (feature_execution_id, time) DO UPDATE` step
for a single row, as generated by `DatabaseUtility.__bulk_upsert_batch` for
the result table: a row with the same key is overwritten in place, otherwise
the row is appended. -/
def upsertRow (store : List ResRow) (r : ResRow) : List ResRow :=
  if store.any (fun s => s.featureExecutionId = r.featureExecutionId && s.time = r.time) then
    store.map (fun s =>
      if s.featureExecutionId = r.featureExecutionId && s.time = r.time then r else s)
  else store ++ r :: []

/-- Embeds `DatabaseUtility.bulk_insert_or_update` acting on the result table
(modelled as a row list).  With no data the store is untouched.  With
`unique_fields = None` — the way `MovingAverage.execute` calls it — every
batch is a plain `INSERT`, so batching by `np.array_split` appends the rows in
order.  With unique fields the statement is the upsert above, row by row. -/
def bulkInsertOrUpdate (data : List ResRow) (uniqueFields : Option (List String))
    (store : List ResRow) : List ResRow :=
  if data.isEmpty then store
  else
    match uniqueFields with
    | none => store ++ data
    | some _ => data.foldl upsertRow store

/-- The candle rows whose `datasource_symbol_id` is in the execution's
required set (`WHERE cnd.datasource_symbol_id in (SELECT ...)`). -/
def relevantCandles (req : List Nat) (candles : List CandleRow) : List CandleRow :=
  candles.filter (fun c => c.dss ∈ req)

/-- The size of the `GROUP BY cnd.time` group for timestamp `t`:
`count(*)` counts candle *rows*, not distinct symbols. -/
def jointCount (req : List Nat) (candles : List CandleRow) (t : Int) : Nat :=
  ((relevantCandles req candles).filter (fun c => c.time = t)).length

/-- Embeds `FeatureExecutionResult.objects.filter(feature_execution=...)`: whether a
prior result exists and, if so, `latest("time")`, i.e. the maximum result
time for this execution. -/
def lastCalcTime (feId : Nat) (store : List ResRow) : Option Int :=
  ((store.filter (fun r => r.featureExecutionId = feId)).map (fun r => r.time)).max?

/-- The times surviving the watermark SQL of
`FeatureImplementation.get_data_from_date`: times of relevant candle rows
whose group size equals `count(datasource_symbol_id)` over the join table
(`HAVING count(*) = ...`), restricted — when a prior result exists — by the
appended `WHERE times.time > last_calc_time`.  (Duplicates in the list are
harmless: only its minimum is consumed.) -/
def candidateTimes (fe : FeatureExecution) (candles : List CandleRow)
    (store : List ResRow) : List Int :=
  ((relevantCandles fe.requiredDss candles).map (fun c => c.time)).filter (fun t =>
    jointCount fe.requiredDss candles t = fe.requiredDss.length &&
      match lastCalcTime fe.id store with
      | some l => l < t
      | none => true)

/-- Embeds `FeatureImplementation.get_data_from_date`: `SELECT min(times.time)` over
the candidate times; if a row came back, subtract the calculation period —
but only when a prior result exists ("No need to - calculation period for the
first time"); `None` (no candidate) maps to `from_date = None`. -/
def getDataFromDate (fe : FeatureExecution) (candles : List CandleRow)
    (store : List ResRow) : Option Int :=
  (candidateTimes fe candles store).min?.map (fun nextCalcTime =>
    match lastCalcTime fe.id store with
    | some _ => nextCalcTime - (fe.calculationPeriod : Int)
    | none => nextCalcTime)

/-- Stable insertion of a candle row into a time-sorted list. -/
def insertByTime (c : CandleRow) : List CandleRow → List CandleRow
  | [] => c :: []
  | d :: ds => if c.time < d.time then c :: d :: ds else d :: insertByTime c ds

/-- Embeds `sort_values(by='time', ascending=True)`. -/
def sortByTime : List CandleRow → List CandleRow
  | [] => []
  | c :: cs => insertByTime c (sortByTime cs)

/-- Embeds `FeatureImplementation.get_data`: `None` when there is no from date,
otherwise the candles of the execution's datasource symbol with
`time__gte=from_date`, sorted ascending by time. -/
def getData (dssId : Nat) (fe : FeatureExecution) (candles : List CandleRow)
    (store : List ResRow) : Option (List CandleRow) :=
  (getDataFromDate fe candles store).map (fun fromDate =>
    sortByTime (candles.filter (fun c => c.dss = dssId && fromDate ≤ c.time)))

/-- Embeds `Series.rolling(n).mean()` with the default `min_periods = n`: entry `i`
is the mean of entries `i - n + 1 .. i` when those all exist, else NaN
(`none`). -/
def rollingMean (n : Nat) (xs : List ℚ) : List (Option ℚ) :=
  (List.range xs.length).map (fun i =>
    if n ≤ i + 1 then
      some ((((xs.drop (i + 1 - n)).take n).foldl (fun a b => a + b) 0) / (n : ℚ))
    else none)

/-- The dataframe reshaping inside `MovingAverage.execute`: compute the
rolling mean of `bid_close`, then keep exactly the columns `time`,
`feature_execution_id` (constant) and `result` (the moving average, NaN
included) — one output row per input candle row. -/
def movingAverageRows (fe : FeatureExecution) (data : List CandleRow) : List ResRow :=
  (data.zip (rollingMean fe.calculationPeriod (data.map (fun c => c.bidClose)))).map
    (fun p => { featureExecutionId := fe.id, time := p.1.time, result := p.2 })

/-- Embeds `MovingAverage.execute`: assert exactly one required datasource symbol,
get the data (skipping with only a log line when `get_data` returns `None`),
compute the rows and save them via
`DatabaseUtility.bulk_insert_or_update(data=data, table=..., batch_size=1000)`
— note: no `unique_fields` argument is passed. -/
def execute (fe : FeatureExecution) (candles : List CandleRow) (store : List ResRow) :
    Except ExecErr (List ResRow) :=
  match fe.requiredDss with
  | dssId :: [] =>
    match getData dssId fe candles store with
    | none => .ok store
    | some data => .ok (bulkInsertOrUpdate (movingAverageRows fe data) none store)
  | _ => .error .assertionError

end Feature

example : MT5.getBatches "1D" 0 5 = some [(1, 5)] := by decide

example : MT5.getBatches "1S" 0 3600002 = some [(1, 3600001), (3600002, 3600002)] := by decide

/-! ## Shared helper lemmas -/

namespace Feature

theorem execute_requiredDss_singleton (fe : FeatureExecution) (candles : List CandleRow)
    (store : List ResRow) (out : List ResRow) (h : execute fe candles store = .ok out) :
    ∃ d, fe.requiredDss = [d] := by
  cases hreq : fe.requiredDss with
  | nil => rw [execute, hreq] at h; exact absurd h (by simp)
  | cons d rest =>
    cases rest with
    | nil => exact ⟨d, rfl⟩
    | cons e rest2 => rw [execute, hreq] at h; exact absurd h (by simp)

end Feature

/-! ## Claim theorems -/

/-- Fixture: a feature execution computing a 1-observation moving average over
datasource symbol 0. -/
def feOverlap : Feature.FeatureExecution := { id := 7, calculationPeriod := 1, requiredDss := [0] }

/-- Fixture: the candle series available at the first run. -/
def candlesFirst : List Feature.CandleRow := [⟨0, "1M", 0, 10⟩, ⟨0, "1M", 1, 20⟩]

/-- Fixture: the candle series available at the second run (one new candle);
the second run's fetch window (from `time = 1`) overlaps the first run's. -/
def candlesUnion : List Feature.CandleRow :=
  [⟨0, "1M", 0, 10⟩, ⟨0, "1M", 1, 20⟩, ⟨0, "1M", 2, 30⟩]

/-- Fixture: the result store produced by the first run. -/
def storeAfterFirst : List Feature.ResRow := [⟨7, 0, some 10⟩, ⟨7, 1, some 20⟩]

/-- C1 (counterexample).  Re-running `MovingAverage.execute` over an
overlapping window does *not* yield the same final result set as one run over
the union range: starting from an empty store, run 1 on `candlesFirst` writes
results at times 0 and 1; run 2 (after a new candle at time 2 arrived)
recomputes from `time = 1` (watermark minus calculation period) and *appends*
its two rows, so the final store holds two copies of the `(7, 1)` row — while
a single run over the union writes three rows.  The persistence call in
`MovingAverage.execute` passes no `unique_fields`, so
`DatabaseUtility.bulk_insert_or_update` takes its plain-`INSERT` branch. -/
theorem movingAverage_rerun_not_idempotent :
    Feature.execute feOverlap candlesFirst [] = .ok storeAfterFirst ∧
    Feature.execute feOverlap candlesUnion storeAfterFirst =
      .ok [⟨7, 0, some 10⟩, ⟨7, 1, some 20⟩, ⟨7, 1, some 20⟩, ⟨7, 2, some 30⟩] ∧
    Feature.execute feOverlap candlesUnion [] =
      .ok [⟨7, 0, some 10⟩, ⟨7, 1, some 20⟩, ⟨7, 2, some 30⟩] ∧
    ([⟨7, 0, some 10⟩, ⟨7, 1, some 20⟩, ⟨7, 1, some 20⟩, ⟨7, 2, some 30⟩] :
        List Feature.ResRow) ≠
      [⟨7, 0, some 10⟩, ⟨7, 1, some 20⟩, ⟨7, 2, some 30⟩] ∧
    (([⟨7, 0, some 10⟩, ⟨7, 1, some 20⟩, ⟨7, 1, some 20⟩, ⟨7, 2, some 30⟩] :
        List Feature.ResRow).filter
      (fun r => r.featureExecutionId = 7 && r.time = 1)).length = 2 := by
  refine ⟨?_, ?_, ?_, ?_, rfl⟩
  · norm_num [Feature.execute, feOverlap, candlesFirst, storeAfterFirst, Feature.getData,
      Feature.getDataFromDate, Feature.candidateTimes, Feature.relevantCandles,
      Feature.jointCount, Feature.lastCalcTime, Feature.sortByTime, Feature.insertByTime,
      Feature.bulkInsertOrUpdate, Feature.movingAverageRows, Feature.rollingMean,
      List.range_succ, List.min?, List.max?]
  · norm_num [Feature.execute, feOverlap, candlesUnion, storeAfterFirst, Feature.getData,
      Feature.getDataFromDate, Feature.candidateTimes, Feature.relevantCandles,
      Feature.jointCount, Feature.lastCalcTime, Feature.sortByTime, Feature.insertByTime,
      Feature.bulkInsertOrUpdate, Feature.movingAverageRows, Feature.rollingMean,
      List.range_succ, List.min?, List.max?]
  · norm_num [Feature.execute, feOverlap, candlesUnion, Feature.getData,
      Feature.getDataFromDate, Feature.candidateTimes, Feature.relevantCandles,
      Feature.jointCount, Feature.lastCalcTime, Feature.sortByTime, Feature.insertByTime,
      Feature.bulkInsertOrUpdate, Feature.movingAverageRows, Feature.rollingMean,
      List.range_succ, List.min?, List.max?]
  · intro h
    exact absurd (congrArg List.length h) (by decide)

/-- C1 (amended).  What the code actually guarantees: `MovingAverage.execute`
persists through `bulk_insert_or_update` *without* `unique_fields`, i.e. a
plain insert, so every successful execution leaves the prior store contents in
place as a prefix and appends its freshly computed rows after them; replays of
an overlapping window therefore duplicate rather than overwrite. -/
theorem movingAverage_execute_appends (fe : Feature.FeatureExecution)
    (candles : List Feature.CandleRow) (store out : List Feature.ResRow)
    (h : Feature.execute fe candles store = .ok out) : store <+: out := by
  obtain ⟨d, hreq⟩ := Feature.execute_requiredDss_singleton fe candles store out h
  simp only [Feature.execute, hreq] at h
  cases hd : Feature.getData d fe candles store with
  | none =>
    simp only [hd, Except.ok.injEq] at h
    exact h ▸ List.prefix_rfl
  | some data =>
    simp only [hd, Except.ok.injEq] at h
    rw [← h, Feature.bulkInsertOrUpdate]
    split
    · exact List.prefix_rfl
    · exact List.prefix_append store _

/-- C1 (witness for the amended theorem), instantiated at the first
counterexample run. -/
theorem movingAverage_execute_appends_witness : ([] : List Feature.ResRow) <+: storeAfterFirst :=
  movingAverage_execute_appends feOverlap candlesFirst [] storeAfterFirst (by
    norm_num [Feature.execute, feOverlap, candlesFirst, storeAfterFirst, Feature.getData,
      Feature.getDataFromDate, Feature.candidateTimes, Feature.relevantCandles,
      Feature.jointCount, Feature.lastCalcTime, Feature.sortByTime, Feature.insertByTime,
      Feature.bulkInsertOrUpdate, Feature.movingAverageRows, Feature.rollingMean,
      List.range_succ, List.min?, List.max?])


/-- Fixture: a feature execution requiring two datasource symbols (0 and 1). -/
def feTwoSymbols : Feature.FeatureExecution :=
  { id := 3, calculationPeriod := 2, requiredDss := [0, 1] }

/-- Fixture: symbol 0 has candles at time 5 in two periods (`1M` and `1H`);
symbol 1 has no candles at all. -/
def candlesTwoPeriods : List Feature.CandleRow := [⟨0, "1M", 5, 1⟩, ⟨0, "1H", 5, 1⟩]

/-- C2 (evaluation at the failing input).  The watermark SQL decides joint
availability by `HAVING count(*) = <number of required symbols>`, which counts
candle *rows* rather than distinct symbols: with two rows for symbol 0 at
time 5 (two candle periods) and no candle for symbol 1, the code nevertheless
returns `from_date = 5`, although time 5 is not jointly available (required
symbol 1 has no candle there) — contradicting both the claim and the
function's own docstring ("the earliest date where we have candle data
available for all required datasource symbols"). -/
theorem watermark_counts_rows_not_symbols :
    Feature.getDataFromDate feTwoSymbols candlesTwoPeriods [] = some 5 ∧
    ¬ ∃ c ∈ candlesTwoPeriods, c.dss = 1 ∧ c.time = 5 := by
  refine ⟨rfl, ?_⟩
  decide

/-- C3 (evaluation at the failing input).  `__get_batches` initialises
`last_batch_to = from_date` (not `None`), so the `if last_batch_to is None`
branch inside the loop is dead and the *first* batch already starts at
`from_date + 1` ms instead of `from_date` — contradicting the claim (and the
loop's own comment, "The first batch starts from from date"): for
`from = 0 ms`, `to = 5 ms`, period `1D`, the single produced batch is
`(1, 5)`, so the union of the batches does not cover `[0, 5)`. -/
theorem batchPlanner_first_batch_starts_late :
    MT5.getBatches "1D" 0 5 = some [(1, 5)] ∧
    ((MT5.getBatches "1D" 0 5).getD []).map Prod.fst ≠ [0] := by
  refine ⟨rfl, ?_⟩
  decide

/-- Fixture: a feature execution computing a 3-observation moving average. -/
def fePeriod3 : Feature.FeatureExecution := { id := 9, calculationPeriod := 3, requiredDss := [0] }

/-- Fixture: the spec's example series — bid closes 10, 20, 30, 40. -/
def candles4 : List Feature.CandleRow :=
  [⟨0, "1M", 0, 10⟩, ⟨0, "1M", 1, 20⟩, ⟨0, "1M", 2, 30⟩, ⟨0, "1M", 3, 40⟩]

/-- C4 (counterexample).  On the spec's own example (trailing mean, period 3,
closes `[10, 20, 30, 40]`) the reshaped upload frame of
`MovingAverage.execute` has *four* rows, not two: the code never drops the
NaN prefix of `rolling(period).mean()`, so the two incomplete-window
timestamps are emitted as rows with a NaN result (the complete-window rows do
carry 20.0 and 30.0 as claimed). -/
theorem movingAverage_emits_nan_prefix_rows :
    Feature.movingAverageRows fePeriod3 candles4 =
      [⟨9, 0, none⟩, ⟨9, 1, none⟩, ⟨9, 2, some 20⟩, ⟨9, 3, some 30⟩] ∧
    (Feature.movingAverageRows fePeriod3 candles4).length ≠ 2 := by
  refine ⟨?_, ?_⟩
  · norm_num [Feature.movingAverageRows, fePeriod3, candles4, Feature.rollingMean,
      List.range_succ]
  · decide

/-- C4 (amended).  What the code actually emits: one result row per input
timestamp — row `i` keeps the candle's time, and its result is the trailing
mean of the last `calculation_period` bid closes when the window is fully
populated (`calculation_period ≤ i + 1`) and NaN (`none`) otherwise; the
incomplete-window rows at the series start are uploaded too, not dropped. -/
theorem movingAverage_row_per_input_timestamp (fe : Feature.FeatureExecution)
    (data : List Feature.CandleRow) (_hper : 1 ≤ fe.calculationPeriod) :
    (Feature.movingAverageRows fe data).length = data.length ∧
    ∀ i c, data[i]? = some c →
      (Feature.movingAverageRows fe data)[i]? = some
        (Feature.ResRow.mk fe.id c.time
          (if fe.calculationPeriod ≤ i + 1 then
            some ((((data.map (fun x => x.bidClose)).drop
                (i + 1 - fe.calculationPeriod)).take fe.calculationPeriod).foldl
                (fun a b => a + b) 0 / (fe.calculationPeriod : ℚ))
          else none)) := by
  have hlen : (Feature.rollingMean fe.calculationPeriod
      (data.map (fun c => c.bidClose))).length = data.length := by
    simp [Feature.rollingMean]
  constructor
  · simp [Feature.movingAverageRows, hlen]
  · intro i c hc
    have hi : i < data.length := by
      by_contra hge
      rw [List.getElem?_eq_none (by omega)] at hc
      exact absurd hc (by simp)
    have hroll : (Feature.rollingMean fe.calculationPeriod
        (data.map (fun x => x.bidClose)))[i]? = some
          (if fe.calculationPeriod ≤ i + 1 then
            some ((((data.map (fun x => x.bidClose)).drop
                (i + 1 - fe.calculationPeriod)).take fe.calculationPeriod).foldl
                (fun a b => a + b) 0 / (fe.calculationPeriod : ℚ))
          else none) := by
      simp [Feature.rollingMean, List.getElem?_map, List.getElem?_range, hi]
    have hz : (data.zip (Feature.rollingMean fe.calculationPeriod
        (data.map (fun c => c.bidClose))))[i]? = some (c,
          if fe.calculationPeriod ≤ i + 1 then
            some ((((data.map (fun x => x.bidClose)).drop
                (i + 1 - fe.calculationPeriod)).take fe.calculationPeriod).foldl
                (fun a b => a + b) 0 / (fe.calculationPeriod : ℚ))
          else none) :=
      List.getElem?_zip_eq_some.mpr ⟨hc, hroll⟩
    rw [Feature.movingAverageRows, List.getElem?_map, hz]
    rfl

/-- C4 (witness for the amended theorem), instantiated at the spec example:
four input candles produce four rows, the first of which is the NaN row at
time 0. -/
theorem movingAverage_row_per_input_timestamp_witness :
    (Feature.movingAverageRows fePeriod3 candles4).length = 4 ∧
    (Feature.movingAverageRows fePeriod3 candles4)[0]? = some ⟨9, 0, none⟩ := by
  obtain ⟨h1, h2⟩ := movingAverage_row_per_input_timestamp fePeriod3 candles4 (by decide)
  refine ⟨by rw [h1]; rfl, ?_⟩
  have := h2 0 ⟨0, "1M", 0, 10⟩ rfl
  simpa using this

/-- C8 (confirmed).  When no jointly-available timestamp satisfies the resume
condition (the watermark SQL returns no candidate time), `get_data_from_date`
returns `None` — a sentinel absence, not an exception — and
`MovingAverage.execute` (with a well-formed single-symbol configuration)
finishes without error and without writing any result row: the store is
returned unchanged. -/
theorem watermark_no_work_skips_cycle (fe : Feature.FeatureExecution)
    (candles : List Feature.CandleRow) (store : List Feature.ResRow) (d : Nat)
    (hreq : fe.requiredDss = [d])
    (hnone : Feature.candidateTimes fe candles store = []) :
    Feature.getDataFromDate fe candles store = none ∧
    Feature.execute fe candles store = .ok store := by
  have hg : Feature.getDataFromDate fe candles store = none := by
    rw [Feature.getDataFromDate, hnone]; rfl
  refine ⟨hg, ?_⟩
  have hd : Feature.getData d fe candles store = none := by
    rw [Feature.getData, hg]; rfl
  simp only [Feature.execute, hreq, hd]

/-- C8 (witness): an execution with one required symbol and an empty candle
table has no candidate time; the cycle is skipped and the store untouched. -/
theorem watermark_no_work_skips_cycle_witness :
    Feature.getDataFromDate ⟨1, 1, [0]⟩ [] [⟨2, 0, some 1⟩] = none ∧
    Feature.execute ⟨1, 1, [0]⟩ [] [⟨2, 0, some 1⟩] = .ok [⟨2, 0, some 1⟩] :=
  watermark_no_work_skips_cycle ⟨1, 1, [0]⟩ [] [⟨2, 0, some 1⟩] 0 rfl rfl

/-- C10 (confirmed).  `MovingAverage.execute` begins with
`assert len(feature_execution.featureexecutiondatasourcesymbol_set.all()) == 1`;
whenever the execution's required-symbol set does not have exactly one
element (the empty set included), the call raises `AssertionError` before any
data is fetched or written — the result is an error, not a silent skip, and
no store is produced. -/
theorem execute_asserts_exactly_one_symbol (fe : Feature.FeatureExecution)
    (candles : List Feature.CandleRow) (store : List Feature.ResRow)
    (hlen : fe.requiredDss.length ≠ 1) :
    Feature.execute fe candles store = .error .assertionError := by
  cases hreq : fe.requiredDss with
  | nil => simp only [Feature.execute, hreq]
  | cons d rest =>
    cases rest with
    | nil => exact absurd (by rw [hreq]; rfl) hlen
    | cons e rest2 => simp only [Feature.execute, hreq]

/-- C10 (witness): the empty required-symbol set trips the assertion. -/
theorem execute_asserts_exactly_one_symbol_witness :
    (Feature.FeatureExecution.mk 1 1 []).requiredDss.length ≠ 1 ∧
    Feature.execute ⟨1, 1, []⟩ [⟨0, "1M", 0, 1⟩] [] = .error .assertionError :=
  ⟨by decide, execute_asserts_exactly_one_symbol ⟨1, 1, []⟩ [⟨0, "1M", 0, 1⟩] [] (by decide)⟩


namespace MT5

theorem fetchAll_map_error_iff (fetch : Nat × Nat → Option (List α)) (err : DataErr)
    (bs : List (Nat × Nat)) (g : List α → β) :
    (∃ e, (fetchAll fetch err bs).map g = .error e) ↔ ∃ b ∈ bs, fetch b = none := by
  induction bs with
  | nil => simp [fetchAll, Except.map]
  | cons b rest ih =>
    simp only [fetchAll]
    cases hf : fetch b with
    | none =>
      exact iff_of_true ⟨err, rfl⟩ ⟨b, List.mem_cons_self b rest, hf⟩
    | some rows =>
      have hstep : (∃ e, (((fetchAll fetch err rest).map
          (fun r => rows ++ r)).map g) = .error e) ↔
          ∃ e, (fetchAll fetch err rest).map g = .error e := by
        cases fetchAll fetch err rest <;> simp [Except.map]
      rw [hstep, ih]
      constructor
      · rintro ⟨x, hx, hfx⟩
        exact ⟨x, List.mem_cons_of_mem b hx, hfx⟩
      · rintro ⟨x, hx, hfx⟩
        rcases List.mem_cons.mp hx with h | h
        · rw [h] at hfx; rw [hfx] at hf; exact absurd hf (by simp)
        · exact ⟨x, h, hfx⟩

theorem fetchAll_map_error_eq (fetch : Nat × Nat → Option (List α)) (err : DataErr)
    (bs : List (Nat × Nat)) (g : List α → β) (e : DataErr)
    (h : (fetchAll fetch err bs).map g = .error e) : e = err := by
  induction bs with
  | nil => simp [fetchAll, Except.map] at h
  | cons b rest ih =>
    simp only [fetchAll] at h
    cases hf : fetch b with
    | none =>
      rw [hf] at h
      simpa [Except.map] using h.symm
    | some rows =>
      rw [hf] at h
      cases hrest : fetchAll fetch err rest with
      | error e2 =>
        rw [hrest] at h
        have h2 : e2 = e := by simpa [Except.map] using h
        exact ih (by simp [hrest, h2, Except.map])
      | ok l => rw [hrest] at h; simp [Except.map] at h

theorem fetchAll_all_empty (fetch : Nat × Nat → Option (List α)) (err : DataErr)
    (bs : List (Nat × Nat)) (h : ∀ b ∈ bs, fetch b = some []) :
    fetchAll fetch err bs = .ok [] := by
  induction bs with
  | nil => rfl
  | cons b rest ih =>
    simp only [fetchAll]
    rw [h b (List.mem_cons_self b rest),
      ih (fun x hx => h x (List.mem_cons_of_mem b hx))]
    rfl

theorem getBatches_ne_nil (p : String) (f t : Nat) (bs : List (Nat × Nat))
    (hlt : f < t) (hbs : getBatches p f t = some bs) : bs ≠ [] := by
  rw [getBatches] at hbs
  cases hB : periodBatchMs p with
  | none => rw [hB] at hbs; exact absurd hbs (by simp)
  | some bMs =>
    rw [hB] at hbs
    have hbs2 : getBatchesAux bMs t (t - f) f = bs := by simpa using hbs
    have hfuel : t - f = (t - f - 1) + 1 := by omega
    rw [← hbs2, hfuel, getBatchesAux]
    simp [hlt]

end MT5

/-- C7 (confirmed).  For both the candle-native (`__get_rates`) and
tick-native (`__get_ticks`) fetch paths over a non-degenerate range: the call
raises if and only if some upstream per-batch call signals failure (returns
`None`); every raised error is the `DataNotAvailableException` carrying the
datasource name, symbol, period, the requested range and the upstream error
code and message; and an upstream success with zero observations in every
batch is not an error — it returns an empty result. -/
theorem fetch_error_iff_upstream_failure
    (fetchR : Nat × Nat → Option (List MT5.Rate))
    (fetchT : Nat × Nat → Option (List MT5.Tick))
    (ds sym p em : String) (ec : Int) (f t : Nat) (bs : List (Nat × Nat))
    (hlt : f < t) (hbs : MT5.getBatches p f t = some bs) :
    ((∃ e, MT5.getRates fetchR ds sym p ec em f t = .error e) ↔
      ∃ b ∈ bs, fetchR b = none) ∧
    (∀ e, MT5.getRates fetchR ds sym p ec em f t = .error e →
      e = .dataNotAvailable ds sym p f t ec em) ∧
    ((∀ b ∈ bs, fetchR b = some []) →
      MT5.getRates fetchR ds sym p ec em f t = .ok []) ∧
    ((∃ e, MT5.getTicks fetchT ds sym p ec em f t = .error e) ↔
      ∃ b ∈ bs, fetchT b = none) ∧
    (∀ e, MT5.getTicks fetchT ds sym p ec em f t = .error e →
      e = .dataNotAvailable ds sym p f t ec em) ∧
    ((∀ b ∈ bs, fetchT b = some []) →
      MT5.getTicks fetchT ds sym p ec em f t = .ok (some [])) := by
  have hne : bs ≠ [] := MT5.getBatches_ne_nil p f t bs hlt hbs
  have hR : MT5.getRates fetchR ds sym p ec em f t =
      (MT5.fetchAll fetchR (.dataNotAvailable ds sym p f t ec em) bs).map
        MT5.dropDupKeepLast := by
    rw [MT5.getRates, hbs]
    simp [List.isEmpty_eq_false.mpr hne]
  have hT : MT5.getTicks fetchT ds sym p ec em f t =
      (MT5.fetchAll fetchT (.dataNotAvailable ds sym p f t ec em) bs).map some := by
    rw [MT5.getTicks, hbs]
    simp [List.isEmpty_eq_false.mpr hne]
  refine ⟨?_, ?_, ?_, ?_, ?_, ?_⟩
  · rw [hR]; exact MT5.fetchAll_map_error_iff fetchR _ bs _
  · rw [hR]; exact fun e he => MT5.fetchAll_map_error_eq fetchR _ bs _ e he
  · intro hall
    rw [hR, MT5.fetchAll_all_empty fetchR _ bs hall]
    rfl
  · rw [hT]; exact MT5.fetchAll_map_error_iff fetchT _ bs _
  · rw [hT]; exact fun e he => MT5.fetchAll_map_error_eq fetchT _ bs _ e he
  · intro hall
    rw [hT, MT5.fetchAll_all_empty fetchT _ bs hall]
    rfl

/-- C7 (witness): over `[0, 3)` at period `1M` (one batch, `(1, 3)`), an
upstream that succeeds with zero rows on every batch yields an empty success
on both paths. -/
theorem fetch_error_iff_upstream_failure_witness :
    MT5.getRates (fun _ => some []) "MT5" "EURUSD" "1M" 1 "msg" 0 3 = .ok [] ∧
    MT5.getTicks (fun _ => some []) "MT5" "EURUSD" "1M" 1 "msg" 0 3 = .ok (some []) := by
  obtain ⟨h1, h2, h3, h4, h5, h6⟩ := fetch_error_iff_upstream_failure
    (fun _ => some []) (fun _ => some []) "MT5" "EURUSD" "1M" "msg" 1 0 3 [(1, 3)]
    (by decide) rfl
  exact ⟨h3 (fun _ _ => rfl), h6 (fun _ _ => rfl)⟩


namespace MT5

theorem dropDupKeepLast_sublist (l : List Rate) : List.Sublist (dropDupKeepLast l) l := by
  induction l with
  | nil => exact List.Sublist.refl []
  | cons r rest ih =>
    rw [dropDupKeepLast]
    split
    · exact ih.cons r
    · exact ih.cons₂ r

theorem mem_map_time_dropDupKeepLast (l : List Rate) (t : Nat) :
    t ∈ (dropDupKeepLast l).map (fun r => r.time) ↔ t ∈ l.map (fun r => r.time) := by
  induction l with
  | nil => simp [dropDupKeepLast]
  | cons r rest ih =>
    rw [dropDupKeepLast]
    split
    · rename_i hany
      obtain ⟨s, hs, hst⟩ := List.any_eq_true.mp hany
      simp only [List.map_cons, List.mem_cons, ih]
      constructor
      · exact Or.inr
      · rintro (h | h)
        · exact List.mem_map.mpr ⟨s, hs, (of_decide_eq_true hst).trans h.symm⟩
        · exact h
    · simp only [List.map_cons, List.mem_cons, ih]

theorem nodup_map_time_dropDupKeepLast (l : List Rate) :
    ((dropDupKeepLast l).map (fun r => r.time)).Nodup := by
  induction l with
  | nil => simp [dropDupKeepLast]
  | cons r rest ih =>
    rw [dropDupKeepLast]
    split
    · exact ih
    · rename_i hany
      refine List.Nodup.cons ?_ ih
      intro hmem
      obtain ⟨s, hs, hst⟩ := List.mem_map.mp hmem
      have hsub : s ∈ rest := (dropDupKeepLast_sublist rest).mem hs
      have : rest.any (fun x => decide (x.time = r.time)) = true :=
        List.any_eq_true.mpr ⟨s, hsub, by simp [hst]⟩
      simp [this] at hany

theorem find?_reverse_dropDupKeepLast (l : List Rate) (r : Rate)
    (h : r ∈ dropDupKeepLast l) :
    l.reverse.find? (fun s => decide (s.time = r.time)) = some r := by
  induction l with
  | nil => simp [dropDupKeepLast] at h
  | cons x rest ih =>
    rw [dropDupKeepLast] at h
    rw [List.reverse_cons, List.find?_append]
    by_cases hany : rest.any (fun s => decide (s.time = x.time)) = true
    · rw [if_pos hany] at h
      rw [ih h]
      rfl
    · rw [if_neg hany] at h
      rcases List.mem_cons.mp h with heq | hmem
      · have hnone : rest.reverse.find? (fun s => decide (s.time = r.time)) = none := by
          rw [List.find?_eq_none]
          intro s hs hdec
          have : rest.any (fun s2 => decide (s2.time = x.time)) = true := by
            refine List.any_eq_true.mpr ⟨s, List.mem_reverse.mp hs, ?_⟩
            rw [of_decide_eq_true hdec, heq]
            simp
          exact hany this
        rw [hnone]
        simp [heq]
      · rw [ih hmem]
        rfl

end MT5

/-- C5 (counterexample).  On the tick path the claim fails: `__get_ticks`
performs no duplicate removal.  With period `1S` over `[0 ms, 3600002 ms]`
the planner yields two batches, and an upstream whose two batches both
contain a tick at `time = 5`, the "merged" series returned by the tick fetch
holds *two* rows for that timestamp — not exactly one. -/
theorem tick_seam_duplicate_survives :
    MT5.getTicks (fun b => if b.1 = 1 then some [⟨5, 1, 2⟩] else some [⟨5, 3, 4⟩])
      "MT5" "EURUSD" "1S" 1 "err" 0 3600002 = .ok (some [⟨5, 1, 2⟩, ⟨5, 3, 4⟩]) ∧
    (([⟨5, 1, 2⟩, ⟨5, 3, 4⟩] : List MT5.Tick).filter
      (fun r => decide (r.time = 5))).length ≠ 1 :=
  ⟨rfl, by decide⟩

/-- C5 (amended).  What the code guarantees: only the candle-native merge
deduplicates.  `__get_rates` concatenates its per-batch results in batch
order and then drops duplicate timestamps keeping the last-seen occurrence —
so its output has at most one row per timestamp, covers exactly the
timestamps of the concatenation, and the surviving row for each timestamp is
the concatenation's last (i.e. latest-batch) row with that timestamp.
`__get_ticks`, by contrast, returns the plain concatenation, so a seam
duplicate appears once per batch. -/
theorem seam_dedup_on_rates_path_only
    (fetchR : Nat × Nat → Option (List MT5.Rate))
    (fetchT : Nat × Nat → Option (List MT5.Tick))
    (ds sym p em : String) (ec : Int) (f t : Nat) (bs : List (Nat × Nat))
    (joined out : List MT5.Rate) (joinedT outT : List MT5.Tick)
    (hbs : MT5.getBatches p f t = some bs)
    (hne : bs ≠ [])
    (hjoin : MT5.fetchAll fetchR (.dataNotAvailable ds sym p f t ec em) bs = .ok joined)
    (hout : MT5.getRates fetchR ds sym p ec em f t = .ok out)
    (hjoinT : MT5.fetchAll fetchT (.dataNotAvailable ds sym p f t ec em) bs = .ok joinedT)
    (houtT : MT5.getTicks fetchT ds sym p ec em f t = .ok (some outT)) :
    ((out.map (fun r => r.time)).Nodup) ∧
    (∀ t0, t0 ∈ joined.map (fun r => r.time) ↔ t0 ∈ out.map (fun r => r.time)) ∧
    (∀ r ∈ out, joined.reverse.find? (fun s => decide (s.time = r.time)) = some r) ∧
    outT = joinedT := by
  have hout2 : out = MT5.dropDupKeepLast joined := by
    rw [MT5.getRates, hbs] at hout
    simp only [List.isEmpty_eq_false.mpr hne, if_neg, Bool.false_eq_true,
      if_false, hjoin, Except.map, Except.ok.injEq] at hout
    exact hout.symm
  have houtT2 : outT = joinedT := by
    rw [MT5.getTicks, hbs] at houtT
    simp only [List.isEmpty_eq_false.mpr hne, if_neg, Bool.false_eq_true,
      if_false, hjoinT, Except.map, Except.ok.injEq, Option.some.injEq] at houtT
    exact houtT.symm
  subst hout2
  refine ⟨MT5.nodup_map_time_dropDupKeepLast joined, ?_, ?_, houtT2⟩
  · intro t0
    exact (MT5.mem_map_time_dropDupKeepLast joined t0).symm
  · intro r hr
    exact MT5.find?_reverse_dropDupKeepLast joined r hr

/-- C5 (witness for the amended theorem): two rate batches sharing timestamp
5 at the seam — the merged candle series keeps exactly the later batch's row
`⟨5, 30, 30, 30, 30, 0, 1⟩`, while the merged tick series keeps both
occurrences. -/
theorem seam_dedup_on_rates_path_only_witness :
    ((([⟨5, 30, 30, 30, 30, 0, 1⟩] : List MT5.Rate).map (fun r => r.time)).Nodup) ∧
    (∀ t0, t0 ∈ ([⟨5, 10, 10, 10, 10, 0, 1⟩, ⟨5, 30, 30, 30, 30, 0, 1⟩] :
        List MT5.Rate).map (fun r => r.time) ↔
      t0 ∈ ([⟨5, 30, 30, 30, 30, 0, 1⟩] : List MT5.Rate).map (fun r => r.time)) ∧
    (∀ r ∈ ([⟨5, 30, 30, 30, 30, 0, 1⟩] : List MT5.Rate),
      ([⟨5, 10, 10, 10, 10, 0, 1⟩, ⟨5, 30, 30, 30, 30, 0, 1⟩] :
        List MT5.Rate).reverse.find? (fun s => decide (s.time = r.time)) = some r) ∧
    ([⟨5, 1, 2⟩, ⟨5, 3, 4⟩] : List MT5.Tick) = [⟨5, 1, 2⟩, ⟨5, 3, 4⟩] :=
  seam_dedup_on_rates_path_only
    (fun b => if b.1 = 1 then some [⟨5, 10, 10, 10, 10, 0, 1⟩]
      else some [⟨5, 30, 30, 30, 30, 0, 1⟩])
    (fun b => if b.1 = 1 then some [⟨5, 1, 2⟩] else some [⟨5, 3, 4⟩])
    "MT5" "EURUSD" "1S" "err" 1 0 3600002 [(1, 3600001), (3600002, 3600002)]
    [⟨5, 10, 10, 10, 10, 0, 1⟩, ⟨5, 30, 30, 30, 30, 0, 1⟩] [⟨5, 30, 30, 30, 30, 0, 1⟩]
    [⟨5, 1, 2⟩, ⟨5, 3, 4⟩] [⟨5, 1, 2⟩, ⟨5, 3, 4⟩]
    rfl (by decide) rfl rfl rfl rfl


/-- C9 (confirmed).  On the tick-resampling route (a period with no native
MT5 timeframe), when every batch's upstream tick fetch succeeds with zero
ticks, `get_prices` returns an empty candle series — the resample of an empty
frame is empty and no exception is raised. -/
theorem empty_tick_stream_yields_empty_series
    (fetchR : Nat × Nat → Option (List MT5.Rate))
    (fetchT : Nat × Nat → Option (List MT5.Tick))
    (ds sym p em : String) (ec : Int) (f t : Nat) (bs : List (Nat × Nat)) (pSec : Nat)
    (hroute : MT5.periodNative p = some false)
    (hsec : MT5.periodSeconds p = some pSec)
    (hlt : f < t)
    (hbs : MT5.getBatches p f t = some bs)
    (hempty : ∀ b ∈ bs, fetchT b = some []) :
    MT5.getPrices fetchR fetchT ds sym f t p ec em = .ok [] := by
  have hne : bs ≠ [] := MT5.getBatches_ne_nil p f t bs hlt hbs
  have hT : MT5.getTicks fetchT ds sym p ec em f t = .ok (some []) := by
    rw [MT5.getTicks, hbs]
    simp only [List.isEmpty_eq_false.mpr hne, Bool.false_eq_true, if_false,
      MT5.fetchAll_all_empty fetchT _ bs hempty]
    rfl
  rw [MT5.getPrices, hroute, hT, hsec]
  rfl

/-- C9 (witness): period `1S` over `[0 ms, 3 ms]` (one batch) with an
upstream returning zero ticks produces an empty series. -/
theorem empty_tick_stream_yields_empty_series_witness :
    MT5.getPrices (fun _ => none) (fun _ => some []) "MT5" "EURUSD" 0 3 "1S" 1 "m" =
      .ok [] :=
  empty_tick_stream_yields_empty_series (fun _ => none) (fun _ => some [])
    "MT5" "EURUSD" "1S" "m" 1 0 3 [(1, 3)] 1 rfl rfl (by decide) rfl (fun _ _ => rfl)


namespace MT5

theorem foldl_max_init_le (l : List ℚ) : ∀ init : ℚ, init ≤ l.foldl max init := by
  induction l with
  | nil => intro init; exact le_refl init
  | cons y ys ih =>
    intro init
    exact le_trans (le_max_left init y) (ih (max init y))

theorem le_foldl_max_of_mem (y : ℚ) (l : List ℚ) (h : y ∈ l) :
    ∀ init : ℚ, y ≤ l.foldl max init := by
  induction h with
  | head as =>
    intro init
    exact le_trans (le_max_right init y) (foldl_max_init_le as (max init y))
  | tail b hmem ih =>
    intro init
    exact ih (max init b)

theorem foldl_max_mem (l : List ℚ) :
    ∀ init : ℚ, l.foldl max init = init ∨ l.foldl max init ∈ l := by
  induction l with
  | nil => intro init; exact Or.inl rfl
  | cons z zs ih =>
    intro init
    rcases ih (max init z) with h | h
    · rcases max_choice init z with hm | hm
      · exact Or.inl (by rw [List.foldl_cons, h, hm])
      · refine Or.inr ?_
        rw [List.foldl_cons, h, hm]
        exact List.mem_cons_self z zs
    · exact Or.inr (List.mem_cons_of_mem z h)

theorem foldl_min_le_init (l : List ℚ) : ∀ init : ℚ, l.foldl min init ≤ init := by
  induction l with
  | nil => intro init; exact le_refl init
  | cons y ys ih =>
    intro init
    exact le_trans (ih (min init y)) (min_le_left init y)

theorem foldl_min_le_of_mem (y : ℚ) (l : List ℚ) (h : y ∈ l) :
    ∀ init : ℚ, l.foldl min init ≤ y := by
  induction h with
  | head as =>
    intro init
    exact le_trans (foldl_min_le_init as (min init y)) (min_le_right init y)
  | tail b hmem ih =>
    intro init
    exact ih (min init b)

theorem foldl_min_mem (l : List ℚ) :
    ∀ init : ℚ, l.foldl min init = init ∨ l.foldl min init ∈ l := by
  induction l with
  | nil => intro init; exact Or.inl rfl
  | cons z zs ih =>
    intro init
    rcases ih (min init z) with h | h
    · rcases min_choice init z with hm | hm
      · exact Or.inl (by rw [List.foldl_cons, h, hm])
      · refine Or.inr ?_
        rw [List.foldl_cons, h, hm]
        exact List.mem_cons_self z zs
    · exact Or.inr (List.mem_cons_of_mem z h)

end MT5

/-- C6 (confirmed).  The tick resampler of `get_prices` has the claimed OHLCV
semantics for both sides: for every bucket holding at least one tick, the
output contains a row at the bucket's start time whose bid/ask open is the
bucket's first tick, whose bid/ask high (low) is an upper (lower) bound of
the bucket attained by some tick, whose bid/ask close is the bucket's last
tick, and whose volume is the bucket's tick count; buckets holding zero ticks
contribute no output row at their start time (the output is sparse, not
zero-filled). -/
theorem resampler_ohlcv_per_bucket (period : String) (pSec : Nat) (ts : List MT5.Tick)
    (hp : 0 < pSec) :
    (∀ b x l, MT5.ticksInBucket pSec ts b = x :: l →
      ∃ row ∈ MT5.resampleTicks period pSec ts,
        row.time = b * pSec ∧ row.period = period ∧
        row.bidOpen = x.bid ∧ row.askOpen = x.ask ∧
        (∀ y ∈ x :: l, y.bid ≤ row.bidHigh) ∧ (∃ y ∈ x :: l, row.bidHigh = y.bid) ∧
        (∀ y ∈ x :: l, row.bidLow ≤ y.bid) ∧ (∃ y ∈ x :: l, row.bidLow = y.bid) ∧
        (∀ y ∈ x :: l, y.ask ≤ row.askHigh) ∧ (∃ y ∈ x :: l, row.askHigh = y.ask) ∧
        (∀ y ∈ x :: l, row.askLow ≤ y.ask) ∧ (∃ y ∈ x :: l, row.askLow = y.ask) ∧
        row.bidClose = ((x :: l).getLast (List.cons_ne_nil x l)).bid ∧
        row.askClose = ((x :: l).getLast (List.cons_ne_nil x l)).ask ∧
        row.volume = (x :: l).length) ∧
    (∀ b, MT5.ticksInBucket pSec ts b = [] →
      ∀ row ∈ MT5.resampleTicks period pSec ts, row.time ≠ b * pSec) := by
  constructor
  · intro b x l hbkt
    have hx : x ∈ MT5.ticksInBucket pSec ts b := by
      rw [hbkt]; exact List.mem_cons_self x l
    have hxts : x ∈ ts := (List.mem_filter.mp hx).1
    have hxb : x.time / pSec = b := of_decide_eq_true (List.mem_filter.mp hx).2
    have hbmem : b ∈ ts.map (fun y => y.time / pSec) := List.mem_map.mpr ⟨x, hxts, hxb⟩
    obtain ⟨lo, hlo⟩ := Option.isSome_iff_exists.mp (List.isSome_min?_of_mem hbmem)
    obtain ⟨hi, hhi⟩ := Option.isSome_iff_exists.mp (List.isSome_max?_of_mem hbmem)
    have hlob : lo ≤ b := (List.min?_eq_some_iff'.mp hlo).2 b hbmem
    have hbhi : b ≤ hi := (List.max?_eq_some_iff'.mp hhi).2 b hbmem
    have hbr : b ∈ List.range' lo (hi + 1 - lo) :=
      List.mem_range'_1.mpr ⟨hlob, by omega⟩
    have hlast : ((x :: l).getLast?).getD x = (x :: l).getLast (List.cons_ne_nil x l) := by
      rw [List.getLast?_eq_getLast (x :: l) (List.cons_ne_nil x l)]
      rfl
    refine ⟨⟨b * pSec, period, x.bid, (l.map (fun y => y.bid)).foldl max x.bid,
        (l.map (fun y => y.bid)).foldl min x.bid,
        (((x :: l).getLast?).getD x).bid, x.ask,
        (l.map (fun y => y.ask)).foldl max x.ask,
        (l.map (fun y => y.ask)).foldl min x.ask,
        (((x :: l).getLast?).getD x).ask, l.length + 1⟩, ?_, rfl, rfl, rfl, rfl,
      ?_, ?_, ?_, ?_, ?_, ?_, ?_, ?_, by rw [hlast], by rw [hlast], by simp⟩
    · rw [MT5.resampleTicks, hlo, hhi]
      refine List.mem_filterMap.mpr ⟨b, hbr, ?_⟩
      rw [hbkt]
      rfl
    · intro y hy
      rcases List.mem_cons.mp hy with h | h
      · rw [h]; exact MT5.foldl_max_init_le _ _
      · exact MT5.le_foldl_max_of_mem y.bid _ (List.mem_map.mpr ⟨y, h, rfl⟩) x.bid
    · rcases MT5.foldl_max_mem (l.map (fun y => y.bid)) x.bid with h | h
      · exact ⟨x, List.mem_cons_self x l, h⟩
      · obtain ⟨y, hy, hyy⟩ := List.mem_map.mp h
        exact ⟨y, List.mem_cons_of_mem x hy, hyy.symm⟩
    · intro y hy
      rcases List.mem_cons.mp hy with h | h
      · rw [h]; exact MT5.foldl_min_le_init _ _
      · exact MT5.foldl_min_le_of_mem y.bid _ (List.mem_map.mpr ⟨y, h, rfl⟩) x.bid
    · rcases MT5.foldl_min_mem (l.map (fun y => y.bid)) x.bid with h | h
      · exact ⟨x, List.mem_cons_self x l, h⟩
      · obtain ⟨y, hy, hyy⟩ := List.mem_map.mp h
        exact ⟨y, List.mem_cons_of_mem x hy, hyy.symm⟩
    · intro y hy
      rcases List.mem_cons.mp hy with h | h
      · rw [h]; exact MT5.foldl_max_init_le _ _
      · exact MT5.le_foldl_max_of_mem y.ask _ (List.mem_map.mpr ⟨y, h, rfl⟩) x.ask
    · rcases MT5.foldl_max_mem (l.map (fun y => y.ask)) x.ask with h | h
      · exact ⟨x, List.mem_cons_self x l, h⟩
      · obtain ⟨y, hy, hyy⟩ := List.mem_map.mp h
        exact ⟨y, List.mem_cons_of_mem x hy, hyy.symm⟩
    · intro y hy
      rcases List.mem_cons.mp hy with h | h
      · rw [h]; exact MT5.foldl_min_le_init _ _
      · exact MT5.foldl_min_le_of_mem y.ask _ (List.mem_map.mpr ⟨y, h, rfl⟩) x.ask
    · rcases MT5.foldl_min_mem (l.map (fun y => y.ask)) x.ask with h | h
      · exact ⟨x, List.mem_cons_self x l, h⟩
      · obtain ⟨y, hy, hyy⟩ := List.mem_map.mp h
        exact ⟨y, List.mem_cons_of_mem x hy, hyy.symm⟩
  · intro b hempty row hrow hbtime
    rw [MT5.resampleTicks] at hrow
    cases hlo : (ts.map (fun y => y.time / pSec)).min? with
    | none => rw [hlo] at hrow; simp at hrow
    | some lo =>
      cases hhi : (ts.map (fun y => y.time / pSec)).max? with
      | none => rw [hhi, hlo] at hrow; simp at hrow
      | some hi =>
        rw [hlo, hhi] at hrow
        obtain ⟨b2, hb2, hf⟩ := List.mem_filterMap.mp hrow
        cases hbkt2 : MT5.ticksInBucket pSec ts b2 with
        | nil => rw [hbkt2] at hf; exact absurd hf (by simp [MT5.aggSide])
        | cons x l =>
          rw [hbkt2] at hf
          simp only [MT5.aggSide] at hf
          have heq := Option.some.inj hf
          have htime : row.time = b2 * pSec := by rw [← heq]
          have hb2b : b2 = b := by
            have : b2 * pSec = b * pSec := by rw [← htime, hbtime]
            exact Nat.eq_of_mul_eq_mul_right hp this
          rw [hb2b] at hbkt2
          rw [hempty] at hbkt2
          exact absurd hbkt2 (by simp)


/-- Fixture: the spec's resampler example — two ticks 30 s apart inside one
1-minute bucket, bids 1.1000 and 1.1005, asks 1.1002 and 1.1007. -/
def exTicks : List MT5.Tick := [⟨0, 11/10, 5501/5000⟩, ⟨30, 2201/2000, 11007/10000⟩]

/-- C6 (witness), instantiated at the spec example: bucket 0 of a 60-second
resample of `exTicks` produces a row at time 0 with the claimed OHLCV
semantics (in particular bid open = 1.1000, close = the last tick's
1.1005, volume = 2). -/
theorem resampler_ohlcv_per_bucket_witness :
    ∃ row ∈ MT5.resampleTicks "1M" 60 exTicks,
      row.time = 0 * 60 ∧ row.period = "1M" ∧
      row.bidOpen = MT5.Tick.bid ⟨0, 11/10, 5501/5000⟩ ∧
      row.askOpen = MT5.Tick.ask ⟨0, 11/10, 5501/5000⟩ ∧
      (∀ y ∈ [(⟨0, 11/10, 5501/5000⟩ : MT5.Tick), ⟨30, 2201/2000, 11007/10000⟩],
        y.bid ≤ row.bidHigh) ∧
      (∃ y ∈ [(⟨0, 11/10, 5501/5000⟩ : MT5.Tick), ⟨30, 2201/2000, 11007/10000⟩],
        row.bidHigh = y.bid) ∧
      (∀ y ∈ [(⟨0, 11/10, 5501/5000⟩ : MT5.Tick), ⟨30, 2201/2000, 11007/10000⟩],
        row.bidLow ≤ y.bid) ∧
      (∃ y ∈ [(⟨0, 11/10, 5501/5000⟩ : MT5.Tick), ⟨30, 2201/2000, 11007/10000⟩],
        row.bidLow = y.bid) ∧
      (∀ y ∈ [(⟨0, 11/10, 5501/5000⟩ : MT5.Tick), ⟨30, 2201/2000, 11007/10000⟩],
        y.ask ≤ row.askHigh) ∧
      (∃ y ∈ [(⟨0, 11/10, 5501/5000⟩ : MT5.Tick), ⟨30, 2201/2000, 11007/10000⟩],
        row.askHigh = y.ask) ∧
      (∀ y ∈ [(⟨0, 11/10, 5501/5000⟩ : MT5.Tick), ⟨30, 2201/2000, 11007/10000⟩],
        row.askLow ≤ y.ask) ∧
      (∃ y ∈ [(⟨0, 11/10, 5501/5000⟩ : MT5.Tick), ⟨30, 2201/2000, 11007/10000⟩],
        row.askLow = y.ask) ∧
      row.bidClose = (([(⟨0, 11/10, 5501/5000⟩ : MT5.Tick), ⟨30, 2201/2000, 11007/10000⟩]).getLast
        (List.cons_ne_nil _ _)).bid ∧
      row.askClose = (([(⟨0, 11/10, 5501/5000⟩ : MT5.Tick), ⟨30, 2201/2000, 11007/10000⟩]).getLast
        (List.cons_ne_nil _ _)).ask ∧
      row.volume = ([(⟨0, 11/10, 5501/5000⟩ : MT5.Tick), ⟨30, 2201/2000, 11007/10000⟩]).length :=
  (resampler_ohlcv_per_bucket "1M" 60 exTicks (by decide)).1 0
    ⟨0, 11/10, 5501/5000⟩ [⟨30, 2201/2000, 11007/10000⟩] rfl

